import Mathlib

/-!
Verification of the Lead Bringer CRM row-oriented data-access layer.

The definitions below are a shallow embedding of `src/api/index.py` (the
Google-Sheets FastAPI service), its runtime shim `src/api/sheets_adapter.py`,
and the alternative Airtable draft `src/Lead Bringer/api/index.py`.

Modelling conventions:
- A worksheet is a `Sheet`: a header row plus data rows, every cell a string.
- `gspread`'s `get_all_records` keys cells by header name; `recordGet` models
  `dict.get(key, default)`: the key exists exactly when the header contains it,
  and a short row yields the empty string for an in-header key.
- Python `str.lower()` is modelled by `lowerStr` (ASCII folding, as Lean's
  `Char.toLower`); `<=` on strings is `strLeB`, lexicographic by code point,
  and `in` (substring) is `strContains` — all executable so concrete runs
  evaluate by `decide`.
- Effects that can raise (`col_values`, `append_row`, Airtable `create`) are
  modelled by boolean outcome fields in an environment record `Env`; a failed
  append leaves the sheet unchanged.  Values produced by the outside world
  (`uuid.uuid4()`, `datetime.now()`, exception text) are environment fields;
  `Env.fresh` is the stream of `str(uuid.uuid4())` defaults generated when a
  record lacks an `ID` key.
- FastAPI routing: a handler that returns a plain dict responds HTTP 200;
  `HTTPException(401)` from the `verify_api_key` dependency responds 401; a
  required header (`Header(...)`) that is absent from the request is rejected
  by FastAPI request validation with HTTP 422 before the dependency or the
  handler body ever runs.
-/

namespace LeadBringer

/-- Python `str.lower()` restricted to ASCII folding (`Char.toLower`),
applied to every character of the string. -/
def lowerStr (s : String) : String := ⟨s.data.map Char.toLower⟩

/-- Lexicographic comparison of character lists by code point; models
Python `<=` on `str`. -/
def listLeB : List Char → List Char → Bool
  | [], _ => true
  | _ :: _, [] => false
  | a :: as, b :: bs =>
      decide (a.toNat < b.toNat) || (decide (a.toNat = b.toNat) && listLeB as bs)

/-- Python `a <= b` on strings. -/
def strLeB (a b : String) : Bool := listLeB a.data b.data

/-- Does `b` start with `a`? (character-list level). -/
def startsChars : List Char → List Char → Bool
  | [], _ => true
  | _ :: _, [] => false
  | a :: as, b :: bs => decide (a = b) && startsChars as bs

/-- Does the haystack contain `needle` as a contiguous substring? -/
def subChars (needle : List Char) : List Char → Bool
  | [] => needle.isEmpty
  | c :: rest => startsChars needle (c :: rest) || subChars needle rest

/-- Python `needle in hay` on strings. -/
def strContains (hay needle : String) : Bool := subChars needle.data hay.data

/-- One worksheet: a header row plus data rows, all cells strings. -/
structure Sheet where
  header : List String
  rows : List (List String)
deriving DecidableEq

/-- `append_row`: adds one row at the bottom of the sheet. -/
def appendRow (sheet : Sheet) (row : List String) : Sheet :=
  { sheet with rows := sheet.rows ++ [row] }

/-- The spreadsheet state: the `Companies` and `Calls` worksheets. -/
structure Store where
  companies : Sheet
  calls : Sheet
deriving DecidableEq

/-- Index of the first header cell equal to `key`. -/
def keyIdx (key : String) : List String → Option Nat
  | [] => none
  | h :: rest => if h == key then some 0 else (keyIdx key rest).map (fun n => n + 1)

/-- `record.get(key, default)` on a `get_all_records` row: the key is present
exactly when the header names it; a missing trailing cell reads as `""`. -/
def recordGet (header row : List String) (key dflt : String) : String :=
  match keyIdx key header with
  | some i => row.getD i ""
  | none => dflt

/-- The first-column (company name) cells of the data rows, in order:
`sheet.col_values(1)[1:]` of the Companies sheet. -/
def namesCol (sheet : Sheet) : List String := sheet.rows.map (fun r => r.headD "")

/-- Lowercased first-column names of the Companies data rows. -/
def lowerNames (sheet : Sheet) : List String := (namesCol sheet).map lowerStr

/-- Invariant claimed by the spec: at most one Companies row per
case-insensitive name. -/
def companiesInv (s : Store) : Prop := (lowerNames s.companies).Nodup

/-- Request body of POST /log-call (`CallLog` pydantic model). -/
structure CallLog where
  company_name : String
  contact_name : String
  notes : String
  follow_up_date : Option String
  offer_made : Option String
deriving DecidableEq

/-- Domain projection of one Companies row (`get_company_data`). -/
structure Company where
  name : String
  location : String
  contact_name : String
  phone : String
  email : String
  products : String
  notes : String
  state : String
  quality : String
  no_call : Bool
  created_at : String
deriving DecidableEq

/-- Domain projection of one Calls record, as returned by the read
endpoints. -/
structure CallOut where
  id : String
  company_name : String
  contact_name : String
  date : String
  time : String
  notes : String
  outcome : String
  next_steps : String
  follow_up_date : String
deriving DecidableEq

/-- The JSON payload of a response together with its HTTP status.  One
record covers every route; routes leave the fields they do not speak
about at their defaults. -/
structure ApiResp where
  status : Nat
  success : Bool
  message : String
  id : String
  company : Option Company
  calls : List CallOut
  matches' : Nat
  count : Nat
  follow_ups : List CallOut
deriving DecidableEq

/-- Response skeleton: HTTP 200 with every payload field empty. -/
def ApiResp.base : ApiResp :=
  { status := 200, success := false, message := "", id := "", company := none,
    calls := [], matches' := 0, count := 0, follow_ups := [] }

/-- Outcomes of effectful store calls plus the values the outside world
supplies during one request. -/
structure Env where
  readOk : Bool
  companiesAppendOk : Bool
  callsAppendOk : Bool
  pingAppendOk : Bool
  uuid : String
  nowStamp : String
  nowIso : String
  dateStr : String
  timeStr : String
  today : String
  fresh : Nat → String
  errText : String

/-- Scan of the name column: first case-insensitive match wins; data row `k`
(0-based) reports sheet row `2 + k`, matching `enumerate(..., start=2)`. -/
def scanAux (target : String) (i : Nat) : List String → Option Nat
  | [] => none
  | n :: rest => if lowerStr n == lowerStr target then some i else scanAux target (i + 1) rest

/-- `find_company_row` on a successfully read sheet: scans
`col_values(1)[1:]` top to bottom, returning the 1-based sheet row of the
first case-insensitive name match. -/
def find_company_row (sheet : Sheet) (company_name : String) : Option Nat :=
  scanAux company_name 2 (namesCol sheet)

/-- `find_company_row` including its `try/except`: a raised read error is
caught and turned into `None`, indistinguishable from "absent". -/
def find_company_row_caught (readResult : Except String Sheet) (company_name : String) :
    Option Nat :=
  match readResult with
  | Except.ok sheet => find_company_row sheet company_name
  | Except.error _ => none

/-- `get_company_data`: projects sheet row `r` (1-based, header is row 1)
into the 11-column Company shape, padding missing cells with `""`. -/
def get_company_data (sheet : Sheet) : Option Nat → Option Company
  | none => none
  | some r =>
      let data := sheet.rows.getD (r - 2) []
      some { name := data.getD 0 "", location := data.getD 1 "",
             contact_name := data.getD 2 "", phone := data.getD 3 "",
             email := data.getD 4 "", products := data.getD 5 "",
             notes := data.getD 6 "", state := data.getD 7 "",
             quality := data.getD 8 "",
             no_call := if !(data.getD 9 "" == "") then lowerStr (data.getD 9 "") == "true" else false,
             created_at := data.getD 10 "" }

/-- Projection of one Calls record into the response shape; `freshId` is the
`str(uuid.uuid4())` default used when the record has no `ID` key. -/
def projectCall (freshId : String) (header row : List String) : CallOut :=
  { id := recordGet header row "ID" freshId,
    company_name := recordGet header row "Company Name" "",
    contact_name := recordGet header row "Contact Name" "",
    date := recordGet header row "Date" "",
    time := recordGet header row "Time" "",
    notes := recordGet header row "Notes" "",
    outcome := recordGet header row "Outcome" "",
    next_steps := recordGet header row "Next Steps" "",
    follow_up_date := recordGet header row "Follow-Up Date" "" }

/-- Projection of every record of the Calls sheet, in store order; row `i`
consumes the `i`-th fresh uuid default. -/
def projLoop (fresh : Nat → String) (header : List String) (i : Nat) :
    List (List String) → List CallOut
  | [] => []
  | row :: rest => projectCall (fresh i) header row :: projLoop fresh header (i + 1) rest

/-- Loop body of `get_calls_for_company`: keep records whose `Company Name`
lowercases to the requested name. -/
def gcLoop (fresh : Nat → String) (company_name : String) (header : List String) (i : Nat) :
    List (List String) → List CallOut
  | [] => []
  | row :: rest =>
      if lowerStr (recordGet header row "Company Name" "") == lowerStr company_name then
        projectCall (fresh i) header row :: gcLoop fresh company_name header (i + 1) rest
      else gcLoop fresh company_name header (i + 1) rest

/-- `get_calls_for_company`: all Calls records for one company,
case-insensitively, in store order. -/
def get_calls_for_company (fresh : Nat → String) (sheet : Sheet) (company_name : String) :
    List CallOut :=
  gcLoop fresh company_name sheet.header 0 sheet.rows

/-- Python truthiness of the optional `company_name` query parameter:
`None` and the empty string are both falsy, so the filter is skipped. -/
def companyFilterActive : Option String → Bool
  | none => false
  | some c => !(c == "")

/-- Loop body of `search_calls`: keyword must appear (lowercased) in the
notes; an active company filter then demands a case-insensitive company
match, otherwise the record is skipped (`continue`). -/
def searchLoop (fresh : Nat → String) (keyword : String) (company_filter : Option String)
    (header : List String) (i : Nat) : List (List String) → List CallOut
  | [] => []
  | row :: rest =>
      if strContains (lowerStr (recordGet header row "Notes" "")) (lowerStr keyword) then
        if companyFilterActive company_filter
            && !(lowerStr (recordGet header row "Company Name" "")
                  == lowerStr (company_filter.getD "")) then
          searchLoop fresh keyword company_filter header (i + 1) rest
        else
          projectCall (fresh i) header row :: searchLoop fresh keyword company_filter header (i + 1) rest
      else searchLoop fresh keyword company_filter header (i + 1) rest

/-- GET /search-calls handler body (store reads succeeded). -/
def search_calls (env : Env) (keyword : String) (company_filter : Option String)
    (sheet : Sheet) : ApiResp :=
  let matching := searchLoop env.fresh keyword company_filter sheet.header 0 sheet.rows
  { ApiResp.base with
    status := 200, success := true, matches' := matching.length,
    calls := matching }

/-- Loop body of `get_follow_ups`: keep records with a non-empty
`Follow-Up Date` that is `<= today` (string comparison). -/
def fuLoop (fresh : Nat → String) (today : String) (header : List String) (i : Nat) :
    List (List String) → List CallOut
  | [] => []
  | row :: rest =>
      if !(recordGet header row "Follow-Up Date" "" == "")
          && strLeB (recordGet header row "Follow-Up Date" "") today then
        projectCall (fresh i) header row :: fuLoop fresh today header (i + 1) rest
      else fuLoop fresh today header (i + 1) rest

/-- Key comparison used by `follow_ups.sort(key=lambda x: x["follow_up_date"])`. -/
def fudLeB (a b : CallOut) : Bool := strLeB a.follow_up_date b.follow_up_date

/-- Stable insertion of `x` in front of the first element it is `<=` to;
elements already in place that compare equal stay in front of nothing —
the earlier element `x` lands before later equal-key elements. -/
def insFud (x : CallOut) : List CallOut → List CallOut
  | [] => [x]
  | y :: ys => if fudLeB x y then x :: y :: ys else y :: insFud x ys

/-- Stable ascending sort by `follow_up_date`; models Python's stable
`list.sort`. -/
def sortByFud : List CallOut → List CallOut
  | [] => []
  | x :: xs => insFud x (sortByFud xs)

/-- GET /get-follow-ups handler body (store reads succeeded); the cutoff
`env.today` is `datetime.now().strftime("%Y-%m-%d")`. -/
def get_follow_ups (env : Env) (sheet : Sheet) : ApiResp :=
  let fus := sortByFud (fuLoop env.fresh env.today sheet.header 0 sheet.rows)
  { ApiResp.base with
    status := 200, success := true, count := fus.length,
    follow_ups := fus }

/-- GET /get-company-history handler body: absent company is a business
failure inside HTTP 200, present company returns its record and its calls. -/
def get_company_history (env : Env) (company_name : String) (s : Store) : ApiResp :=
  match find_company_row s.companies company_name with
  | none => { ApiResp.base with status := 200, success := false, message := "Company not found" }
  | some r =>
      { ApiResp.base with
        status := 200, success := true,
        company := get_company_data s.companies (some r),
        calls := get_calls_for_company env.fresh s.calls company_name }

/-- The 11-column Companies row appended when the company is absent. -/
def companyRow (env : Env) (call : CallLog) : List String :=
  [call.company_name, "", call.contact_name, "", "", "", "", "", "", "FALSE", env.nowStamp]

/-- The 9-column Calls row appended by /log-call. -/
def callRow (env : Env) (call : CallLog) : List String :=
  [env.uuid, call.company_name, call.contact_name, env.dateStr, env.timeStr, call.notes,
   "", "", call.follow_up_date.getD ""]

/-- The catch-all response of the /log-call handler: any raised store error
is caught and answered as HTTP 200 with `success:false` and a diagnostic. -/
def logCallErr (env : Env) : ApiResp :=
  { ApiResp.base with
    status := 200, success := false,
    message := "Error logging call: " ++ env.errText }

/-- Second half of /log-call: append the call row; a raised append error is
caught by the handler's `except` and answered as HTTP 200, `success:false`. -/
def appendCallStep (env : Env) (call : CallLog) (s : Store) : Store × ApiResp :=
  if env.callsAppendOk then
    ({ s with
       calls := appendRow s.calls (callRow env call) },
     { ApiResp.base with
       status := 200, success := true,
       message := "Call logged successfully", id := env.uuid })
  else (s, logCallErr env)

/-- POST /log-call handler body: scan Companies (read errors are swallowed
inside `find_company_row`), append a Companies row when the scan reports
absence, then append the Calls row. -/
def log_call (env : Env) (call : CallLog) (s : Store) : Store × ApiResp :=
  match find_company_row_caught
      (if env.readOk then Except.ok s.companies else Except.error env.errText)
      call.company_name with
  | none =>
      if env.companiesAppendOk then
        appendCallStep env call { s with companies := appendRow s.companies (companyRow env call) }
      else (s, logCallErr env)
  | some _ => appendCallStep env call s

/-- The timestamp row GET /sheets-ping appends to the Calls sheet. -/
def pingRow (env : Env) : List String :=
  [env.nowIso, "Test Ping", "", env.dateStr, env.timeStr, "sheets-ping test", "", "", ""]

/-- GET /sheets-ping handler body: appends a timestamp row to Calls; both
outcomes answer HTTP 200. -/
def sheets_ping (env : Env) (s : Store) : Store × ApiResp :=
  if env.pingAppendOk then
    ({ s with
       calls := appendRow s.calls (pingRow env) },
     { ApiResp.base with status := 200, success := true, message := "wrote row" })
  else (s, { ApiResp.base with
             status := 200, success := false,
             message := "Sheets ping failed: " ++ env.errText })

/-- `verify_api_key` body: byte-for-byte comparison of the `X-API-Key`
header against the configured `API_KEY`. -/
def verify_api_key (apiKey : String) (x_api_key : String) : Bool := x_api_key == apiKey

/-- The routes of the app that the claims speak about. -/
inductive Route
  | health
  | test
  | sheetsPing
  | logCall
  | companyHistory
  | searchCalls
  | followUps
deriving DecidableEq

/-- Which routes carry `dependencies=[Depends(verify_api_key)]` in the
source: exactly the four domain routes. -/
def routeProtected : Route → Bool
  | Route.logCall => true
  | Route.companyHistory => true
  | Route.searchCalls => true
  | Route.followUps => true
  | _ => false

/-- One incoming HTTP request: target route, optional `X-API-Key` header,
and the union of the route parameters. -/
structure Request where
  route : Route
  header : Option String
  callBody : CallLog
  companyNameQ : String
  keywordQ : String
  companyFilterQ : Option String

/-- What FastAPI does with the `X-API-Key` header before a protected
handler runs. -/
inductive AuthResult
  | missingHeader
  | badKey
  | passed
deriving DecidableEq

/-- Auth outcome: an absent required header is rejected by request
validation (the dependency body never runs); a present header is compared
by `verify_api_key`, which raises `HTTPException(401)` on mismatch. -/
def authCheck (apiKey : String) : Option String → AuthResult
  | none => AuthResult.missingHeader
  | some k => if verify_api_key apiKey k then AuthResult.passed else AuthResult.badKey

/-- FastAPI's rejection of a request missing a required header:
HTTP 422 validation error. -/
def validationErrResp : ApiResp :=
  { ApiResp.base with status := 422, success := false, message := "field required" }

/-- The `HTTPException(status_code=401, detail="Invalid API Key")` response. -/
def invalidKeyResp : ApiResp :=
  { ApiResp.base with status := 401, success := false, message := "Invalid API Key" }

/-- Dispatch to the route handler bodies (auth already passed or absent). -/
def runRoute (env : Env) (req : Request) (s : Store) : Store × ApiResp :=
  match req.route with
  | Route.health =>
      (s, { ApiResp.base with
            status := 200, success := true,
            message := "Lead Bringer CRM API is running with Google Sheets" })
  | Route.test =>
      (s, { ApiResp.base with status := 200, success := true, message := "Test endpoint works!" })
  | Route.sheetsPing => sheets_ping env s
  | Route.logCall => log_call env req.callBody s
  | Route.companyHistory => (s, get_company_history env req.companyNameQ s)
  | Route.searchCalls => (s, search_calls env req.keywordQ req.companyFilterQ s.calls)
  | Route.followUps => (s, get_follow_ups env s.calls)

/-- Full request handling: the auth gate runs first on protected routes,
and only a passed check reaches any handler body. -/
def handle (apiKey : String) (env : Env) (req : Request) (s : Store) : Store × ApiResp :=
  if routeProtected req.route then
    match authCheck apiKey req.header with
    | AuthResult.missingHeader => (s, validationErrResp)
    | AuthResult.badKey => (s, invalidKeyResp)
    | AuthResult.passed => runRoute env req s
  else runRoute env req s

/-- Iterated /log-call requests (sequential — no concurrency), keeping only
the evolving store. -/
def runLogCalls : List (Env × CallLog) → Store → Store
  | [], s => s
  | p :: rest, s => runLogCalls rest (log_call p.1 p.2 s).1

/-- One Airtable `Companies` record of the alternative draft
(`src/Lead Bringer/api/index.py`): record id, Name, Contact Name. -/
structure LbCompany where
  rid : String
  name : String
  contact_name : String
deriving DecidableEq

/-- One Airtable `Calls` record of the alternative draft. -/
structure LbCall where
  company : List String
  contact_name : String
  notes : String
  follow_up_date : Option String
deriving DecidableEq

/-- The Airtable base state of the alternative draft. -/
structure LbState where
  companies : List LbCompany
  calls : List LbCall
deriving DecidableEq

/-- Effect outcomes and outside-world values for one Airtable request. -/
structure LbEnv where
  getOk : Bool
  createCompanyOk : Bool
  createCallOk : Bool
  newCompanyId : String
  newCallId : String
  errText : String
deriving DecidableEq

/-- The draft's 500 response: `JSONResponse(status_code=500, ...)` carrying
the exception text. -/
def lbErr (env : LbEnv) : ApiResp :=
  { ApiResp.base with
    status := 500, success := false,
    message := "Exception: " ++ env.errText }

/-- Second half of the draft's /log-call: `at.create(CALLS_TABLE, ...)`;
a raised error is answered with an explicit HTTP 500. -/
def lbCreateCall (env : LbEnv) (call : CallLog) (cid : String) (st : LbState) :
    LbState × ApiResp :=
  if env.createCallOk then
    ({ st with
       calls := st.calls ++ [{ company := [cid], contact_name := call.contact_name,
                                       notes := call.notes,
                                       follow_up_date := call.follow_up_date }] },
     { ApiResp.base with
       status := 200, success := true,
       message := "Call logged successfully", id := env.newCallId })
  else (st, lbErr env)

/-- The draft's /log-call: filter companies by `LOWER(Name)=LOWER(input)`,
create the company when the filter is empty, then create the call; any
raised store error is answered with HTTP 500 and the exception text. -/
def lb_log_call (env : LbEnv) (call : CallLog) (st : LbState) : LbState × ApiResp :=
  if env.getOk then
    match st.companies.filter (fun c => lowerStr c.name == lowerStr call.company_name) with
    | [] =>
        if env.createCompanyOk then
          lbCreateCall env call env.newCompanyId
            { st with companies := st.companies
                ++ [{ rid := env.newCompanyId, name := call.company_name,
                      contact_name := call.contact_name }] }
        else (st, lbErr env)
    | c :: _ => lbCreateCall env call c.rid st
  else (st, lbErr env)

/-- The due-follow-up test of `get_follow_ups`, phrased on the projected
record: `follow_up_date` non-empty and `<=` the cutoff. -/
def duePred (today : String) (c : CallOut) : Bool :=
  !(c.follow_up_date == "") && strLeB c.follow_up_date today

/-- The record test of `search_calls`, phrased on the projected record:
the lowercased keyword occurs in the lowercased notes, and an active
(present and non-empty) company filter demands a case-insensitive
company-name match. -/
def searchPred (keyword : String) (company_filter : Option String) (c : CallOut) : Bool :=
  strContains (lowerStr c.notes) (lowerStr keyword)
  && (!(companyFilterActive company_filter)
      || lowerStr c.company_name == lowerStr (company_filter.getD ""))

/-- The header row of the Calls worksheet in its 9-column layout. -/
def callsHeader : List String :=
  ["ID", "Company Name", "Contact Name", "Date", "Time", "Notes", "Outcome", "Next Steps",
   "Follow-Up Date"]

/-- A concrete environment where every store call succeeds. -/
def envW : Env :=
  { readOk := true, companiesAppendOk := true, callsAppendOk := true, pingAppendOk := true,
    uuid := "u-1", nowStamp := "2024-01-01 10:00:00", nowIso := "2024-01-01T10:00:00",
    dateStr := "2024-01-01", timeStr := "10:00:00", today := "2024-06-01",
    fresh := fun _ => "fresh-a", errText := "boom" }

/-- `envW`, except the companies-column read raises. -/
def envReadFail : Env := { envW with readOk := false }

/-- `envW`, except the Calls `append_row` raises. -/
def envWriteFail : Env := { envW with callsAppendOk := false }

/-- `envW`, except the run draws different fresh uuid defaults. -/
def envFreshB : Env := { envW with fresh := fun _ => "fresh-b" }

/-- A concrete /log-call body. -/
def callW : CallLog :=
  { company_name := "Acme Corp", contact_name := "Jane", notes := "intro call",
    follow_up_date := some "2024-01-10", offer_made := none }

/-- A store with empty Companies and Calls sheets. -/
def emptyStore : Store :=
  { companies := { header := ["Name"], rows := [] },
    calls := { header := callsHeader, rows := [] } }

/-- A store already holding the company `Acme Corp` and one of its calls. -/
def acmeStore : Store :=
  { companies :=
      { header := ["Name"],
        rows := [["Acme Corp", "", "Jane", "", "", "", "", "", "", "FALSE",
                  "2024-01-01 09:00:00"]] },
    calls :=
      { header := callsHeader,
        rows := [["i1", "Acme Corp", "Jane", "2024-01-01", "09:00:00",
                  "requested a refund today", "", "", "2024-05-05"]] } }

/-- A Calls sheet with one `Acme` call mentioning a refund. -/
def refundSheet : Sheet :=
  { header := callsHeader,
    rows := [["i1", "Acme", "J", "2024-01-01", "09:00:00", "requested a refund today",
              "", "", "2024-05-05"]] }

/-- A Calls sheet whose header has no `ID` column. -/
def noIdSheet : Sheet :=
  { header := ["Company Name", "Notes", "Follow-Up Date"],
    rows := [["Acme", "hello", "2024-01-01"]] }

/-- A store pairing `noIdSheet` with a Companies sheet that holds `Acme`. -/
def noIdStore : Store :=
  { companies := { header := ["Name"], rows := [["Acme"]] }, calls := noIdSheet }

/-- A Companies sheet holding the same name twice in different casings. -/
def dupSheet : Sheet :=
  { header := ["Name"], rows := [["Acme Corp"], ["ACME CORP"]] }

/-- A /log-call request carrying no `X-API-Key` header. -/
def reqNoHeader : Request :=
  { route := Route.logCall, header := none, callBody := callW,
    companyNameQ := "", keywordQ := "", companyFilterQ := none }

/-- A /log-call request carrying a wrong `X-API-Key` header. -/
def reqBadKey : Request := { reqNoHeader with header := some "wrong" }

/-- A /sheets-ping request carrying no `X-API-Key` header. -/
def reqPing : Request := { reqNoHeader with route := Route.sheetsPing }

/-- A concrete Airtable environment where both `create` calls raise. -/
def lbEnvFail : LbEnv :=
  { getOk := true, createCompanyOk := false, createCallOk := false,
    newCompanyId := "rc-1", newCallId := "rl-1", errText := "airtable down" }

/-- An empty Airtable base. -/
def lbStateW : LbState := { companies := [], calls := [] }

/-- Two sequential /log-call requests for the same company name in two
casings. -/
def twoLogSteps : List (Env × CallLog) :=
  [(envW, callW), (envW, { callW with company_name := "ACME CORP" })]

/-! Order facts about the lexicographic string comparison. -/

theorem listLeB_refl (l : List Char) : listLeB l l = true := by
  induction l with
  | nil => rfl
  | cons a as ih => simp [listLeB, ih]

theorem listLeB_total (a b : List Char) : listLeB a b = true ∨ listLeB b a = true := by
  induction a generalizing b with
  | nil => exact Or.inl rfl
  | cons x xs ih =>
    cases b with
    | nil => exact Or.inr rfl
    | cons y ys =>
      simp only [listLeB, Bool.or_eq_true, Bool.and_eq_true, decide_eq_true_eq]
      rcases Nat.lt_trichotomy x.toNat y.toNat with h | h | h
      · exact Or.inl (Or.inl h)
      · rcases ih ys with h2 | h2
        · exact Or.inl (Or.inr ⟨h, h2⟩)
        · exact Or.inr (Or.inr ⟨h.symm, h2⟩)
      · exact Or.inr (Or.inl h)

theorem listLeB_trans (a : List Char) :
    ∀ b c, listLeB a b = true → listLeB b c = true → listLeB a c = true := by
  induction a with
  | nil => intro b c _ _; rfl
  | cons x xs ih =>
    intro b c hab hbc
    cases b with
    | nil => cases hab
    | cons y ys =>
      cases c with
      | nil => cases hbc
      | cons z zs =>
        simp only [listLeB, Bool.or_eq_true, Bool.and_eq_true, decide_eq_true_eq]
          at hab hbc ⊢
        rcases hab with h1 | h1 <;> rcases hbc with h2 | h2
        · exact Or.inl (by omega)
        · exact Or.inl (by omega)
        · exact Or.inl (by omega)
        · exact Or.inr ⟨by omega, ih ys zs h1.2 h2.2⟩

theorem fudLeB_refl (a : CallOut) : fudLeB a a = true := listLeB_refl _

theorem fudLeB_total (a b : CallOut) : fudLeB a b = true ∨ fudLeB b a = true :=
  listLeB_total _ _

theorem fudLeB_of_not {a b : CallOut} (h : fudLeB a b = false) : fudLeB b a = true := by
  rcases fudLeB_total a b with h2 | h2
  · rw [h] at h2; cases h2
  · exact h2

theorem fudLeB_trans {a b c : CallOut} (h1 : fudLeB a b = true) (h2 : fudLeB b c = true) :
    fudLeB a c = true :=
  listLeB_trans _ _ _ h1 h2

theorem fudLeB_of_eq {a b : CallOut} (h : a.follow_up_date = b.follow_up_date) :
    fudLeB a b = true := by
  unfold fudLeB strLeB
  rw [h]
  exact listLeB_refl _

/-! Permutation, sortedness and stability of the insertion sort that models
Python's stable `list.sort(key=...)`. -/

theorem insFud_perm (x : CallOut) (l : List CallOut) : List.Perm (insFud x l) (x :: l) := by
  induction l with
  | nil => simp [insFud]
  | cons y ys ih =>
    cases hxy : fudLeB x y with
    | true => simp [insFud, hxy]
    | false =>
      simp only [insFud, hxy, Bool.false_eq_true, if_false]
      exact (ih.cons y).trans (List.Perm.swap x y ys)

theorem sortByFud_perm (l : List CallOut) : List.Perm (sortByFud l) l := by
  induction l with
  | nil => simp [sortByFud]
  | cons x xs ih => exact (insFud_perm x (sortByFud xs)).trans (ih.cons x)

theorem insFud_pairwise (x : CallOut) (l : List CallOut)
    (h : List.Pairwise (fun a b => fudLeB a b = true) l) :
    List.Pairwise (fun a b => fudLeB a b = true) (insFud x l) := by
  induction l with
  | nil => simp [insFud]
  | cons y ys ih =>
    rcases List.pairwise_cons.mp h with ⟨hy, hys⟩
    cases hxy : fudLeB x y with
    | true =>
      simp only [insFud, hxy, if_true]
      refine List.pairwise_cons.mpr ⟨?_, h⟩
      intro z hz
      rcases List.mem_cons.mp hz with rfl | hz2
      · exact hxy
      · exact fudLeB_trans hxy (hy z hz2)
    | false =>
      simp only [insFud, hxy, Bool.false_eq_true, if_false]
      refine List.pairwise_cons.mpr ⟨?_, ih hys⟩
      intro z hz
      rw [(insFud_perm x ys).mem_iff] at hz
      rcases List.mem_cons.mp hz with rfl | hz2
      · exact fudLeB_of_not hxy
      · exact hy z hz2

theorem sortByFud_pairwise (l : List CallOut) :
    List.Pairwise (fun a b => fudLeB a b = true) (sortByFud l) := by
  induction l with
  | nil => simp [sortByFud]
  | cons x xs ih => exact insFud_pairwise x _ ih

theorem insFud_filter (x : CallOut) (l : List CallOut) (k : String) :
    (insFud x l).filter (fun c => c.follow_up_date == k) =
      if x.follow_up_date == k then x :: l.filter (fun c => c.follow_up_date == k)
      else l.filter (fun c => c.follow_up_date == k) := by
  induction l with
  | nil => cases hx : (x.follow_up_date == k) <;> simp [insFud, List.filter_cons, hx]
  | cons y ys ih =>
    cases hxy : fudLeB x y with
    | true =>
      cases hx : (x.follow_up_date == k) <;>
        simp [insFud, hxy, List.filter_cons, hx]
    | false =>
      cases hx : (x.follow_up_date == k) with
      | false =>
        cases hy : (y.follow_up_date == k) <;>
          simp [insFud, hxy, List.filter_cons, hx, hy, ih]
      | true =>
        have hyk : (y.follow_up_date == k) = false := by
          cases hy : (y.follow_up_date == k) with
          | false => rfl
          | true =>
            have hx' : x.follow_up_date = k := by simpa using hx
            have hy' : y.follow_up_date = k := by simpa using hy
            have hle : fudLeB x y = true := fudLeB_of_eq (hx'.trans hy'.symm)
            rw [hxy] at hle
            cases hle
        simp [insFud, hxy, List.filter_cons, hx, hyk, ih]

theorem sortByFud_filter (l : List CallOut) (k : String) :
    (sortByFud l).filter (fun c => c.follow_up_date == k) =
      l.filter (fun c => c.follow_up_date == k) := by
  induction l with
  | nil => rfl
  | cons x xs ih =>
    rw [sortByFud, insFud_filter]
    cases hx : (x.follow_up_date == k) <;> simp [List.filter_cons, hx, ih]

/-! Each read loop is the filter of the full projection by the
corresponding record predicate. -/

theorem fuLoop_eq_filter (fresh : Nat → String) (today : String) (header : List String)
    (rows : List (List String)) : ∀ i : Nat,
    fuLoop fresh today header i rows = (projLoop fresh header i rows).filter (duePred today) := by
  induction rows with
  | nil => intro i; rfl
  | cons row rest ih =>
    intro i
    have hc : (!(recordGet header row "Follow-Up Date" "" == "")
          && strLeB (recordGet header row "Follow-Up Date" "") today)
        = duePred today (projectCall (fresh i) header row) := rfl
    simp only [fuLoop, projLoop, List.filter_cons, hc]
    cases h : duePred today (projectCall (fresh i) header row) <;> simp [h, ih (i + 1)]

theorem gcLoop_eq_filter (fresh : Nat → String) (company_name : String) (header : List String)
    (rows : List (List String)) : ∀ i : Nat,
    gcLoop fresh company_name header i rows =
      (projLoop fresh header i rows).filter
        (fun c => lowerStr c.company_name == lowerStr company_name) := by
  induction rows with
  | nil => intro i; rfl
  | cons row rest ih =>
    intro i
    have hc : (lowerStr (recordGet header row "Company Name" "") == lowerStr company_name)
        = (lowerStr (projectCall (fresh i) header row).company_name == lowerStr company_name) :=
      rfl
    simp only [gcLoop, projLoop, List.filter_cons, hc]
    cases h : (lowerStr (projectCall (fresh i) header row).company_name
        == lowerStr company_name) <;> simp [h, ih (i + 1)]

theorem searchLoop_eq_filter (fresh : Nat → String) (keyword : String)
    (company_filter : Option String) (header : List String)
    (rows : List (List String)) : ∀ i : Nat,
    searchLoop fresh keyword company_filter header i rows =
      (projLoop fresh header i rows).filter (searchPred keyword company_filter) := by
  induction rows with
  | nil => intro i; rfl
  | cons row rest ih =>
    intro i
    have hnotes : recordGet header row "Notes" "" = (projectCall (fresh i) header row).notes :=
      rfl
    have hcn : recordGet header row "Company Name" ""
        = (projectCall (fresh i) header row).company_name := rfl
    simp only [searchLoop, projLoop, List.filter_cons, hnotes, hcn]
    cases hA : strContains (lowerStr (projectCall (fresh i) header row).notes)
        (lowerStr keyword) with
    | false =>
      have hp : searchPred keyword company_filter (projectCall (fresh i) header row) = false := by
        simp [searchPred, hA]
      simp [hp, ih (i + 1)]
    | true =>
      cases hB : companyFilterActive company_filter with
      | false =>
        have hp : searchPred keyword company_filter (projectCall (fresh i) header row) = true := by
          simp [searchPred, hA, hB]
        simp [hA, hB, hp, ih (i + 1)]
      | true =>
        cases hC : (lowerStr (projectCall (fresh i) header row).company_name
            == lowerStr (company_filter.getD "")) with
        | true =>
          have hp : searchPred keyword company_filter (projectCall (fresh i) header row)
              = true := by
            simp [searchPred, hA, hB, hC]
          simp [hA, hB, hC, hp, ih (i + 1)]
        | false =>
          have hp : searchPred keyword company_filter (projectCall (fresh i) header row)
              = false := by
            simp [searchPred, hA, hB, hC]
          simp [hA, hB, hC, hp, ih (i + 1)]

/-! The name-column scan, characterised. -/

theorem scanAux_none_iff (target : String) (names : List String) : ∀ i : Nat,
    scanAux target i names = none ↔ ∀ n ∈ names, ¬ lowerStr n = lowerStr target := by
  induction names with
  | nil => intro i; simp [scanAux]
  | cons n rest ih =>
    intro i
    cases h : (lowerStr n == lowerStr target) with
    | true =>
      have h' : lowerStr n = lowerStr target := by simpa using h
      simp [scanAux, h, h']
    | false =>
      have h' : ¬ lowerStr n = lowerStr target := by simpa using h
      simp [scanAux, h, h', ih (i + 1)]

theorem scanAux_some (target : String) (names : List String) : ∀ i r : Nat,
    scanAux target i names = some r →
      ∃ k, k < names.length ∧ r = i + k
        ∧ lowerStr (names.getD k "") = lowerStr target
        ∧ ∀ j, j < k → ¬ lowerStr (names.getD j "") = lowerStr target := by
  induction names with
  | nil => intro i r h; cases h
  | cons n rest ih =>
    intro i r h
    cases hn : (lowerStr n == lowerStr target) with
    | true =>
      have h' : lowerStr n = lowerStr target := by simpa using hn
      have hr : r = i := by
        rw [scanAux, hn] at h
        simp at h
        omega
      refine ⟨0, by simp, by omega, by simpa using h', ?_⟩
      intro j hj
      omega
    | false =>
      have h2 : scanAux target (i + 1) rest = some r := by
        rw [scanAux, hn] at h
        simpa using h
      rcases ih (i + 1) r h2 with ⟨k, hk, hrk, hmatch, hbefore⟩
      refine ⟨k + 1, by simpa using Nat.succ_lt_succ hk, by omega, by simpa using hmatch, ?_⟩
      intro j hj
      cases j with
      | zero =>
        have h' : ¬ lowerStr n = lowerStr target := by simpa using hn
        simpa using h'
      | succ j2 =>
        have := hbefore j2 (by omega)
        simpa using this

theorem scanAux_congr (a b : String) (h : lowerStr a = lowerStr b) (names : List String) :
    ∀ i : Nat, scanAux a i names = scanAux b i names := by
  induction names with
  | nil => intro i; rfl
  | cons n rest ih => intro i; simp [scanAux, h, ih (i + 1)]

/-! Facts about the /log-call state transition. -/

theorem appendCallStep_companies (env : Env) (call : CallLog) (s : Store) :
    (appendCallStep env call s).1.companies = s.companies := by
  unfold appendCallStep
  split <;> rfl

theorem appendCallStep_calls (env : Env) (call : CallLog) (s : Store) :
    (appendCallStep env call s).1.calls
      = if env.callsAppendOk then appendRow s.calls (callRow env call) else s.calls := by
  unfold appendCallStep
  split <;> simp_all

theorem find_company_row_none_not_mem {sheet : Sheet} {name : String}
    (h : find_company_row sheet name = none) : lowerStr name ∉ lowerNames sheet := by
  intro hmem
  rcases List.mem_map.mp hmem with ⟨n, hn, hln⟩
  exact (scanAux_none_iff name (namesCol sheet) 2).mp h n hn hln

theorem nodup_append_lower {l : List String} {x : String} (h : l.Nodup) (hx : x ∉ l) :
    (l ++ [x]).Nodup := by
  rw [(List.perm_append_singleton x l).nodup_iff]
  exact List.nodup_cons.mpr ⟨hx, h⟩

theorem lowerNames_appendRow (sheet : Sheet) (env : Env) (call : CallLog) :
    lowerNames (appendRow sheet (companyRow env call))
      = lowerNames sheet ++ [lowerStr call.company_name] := by
  simp [lowerNames, namesCol, appendRow, companyRow]

theorem log_call_preserves_inv (env : Env) (call : CallLog) (s : Store)
    (hread : env.readOk = true) (h : companiesInv s) :
    companiesInv (log_call env call s).1 := by
  rw [log_call, hread]
  simp only [if_true, find_company_row_caught]
  cases hf : find_company_row s.companies call.company_name with
  | some r =>
    show companiesInv (appendCallStep env call s).1
    unfold companiesInv
    rw [appendCallStep_companies]
    exact h
  | none =>
    cases hca : env.companiesAppendOk with
    | false => simpa using h
    | true =>
      simp only [if_true]
      show companiesInv (appendCallStep env call
        { s with companies := appendRow s.companies (companyRow env call) }).1
      unfold companiesInv
      rw [appendCallStep_companies]
      show (lowerNames (appendRow s.companies (companyRow env call))).Nodup
      rw [lowerNames_appendRow]
      exact nodup_append_lower h (find_company_row_none_not_mem hf)

/-! Substring facts used by the search endpoint. -/

theorem subChars_nil (l : List Char) : subChars [] l = true := by
  cases l <;> simp [subChars, startsChars, List.isEmpty]

theorem searchPred_empty_keyword (c : CallOut) : searchPred "" none c = true := by
  have h : (lowerStr "").data = [] := rfl
  simp [searchPred, strContains, companyFilterActive, h, subChars_nil]

/-! The claims. -/

/-- Claim C1: with requests sequential (no concurrent callers) and the
pre-insert scans succeeding, every Companies table reachable through
/log-call alone keeps at most one row per case-insensitive name — the
second log-call for an existing name finds the row via the scan and
appends no duplicate company row. -/
theorem logCall_at_most_one_company_row (steps : List (Env × CallLog)) :
    ∀ s : Store, (∀ p ∈ steps, p.1.readOk = true) → companiesInv s →
      companiesInv (runLogCalls steps s) := by
  induction steps with
  | nil => intro s _ h; exact h
  | cons p rest ih =>
    intro s hr h
    exact ih _ (fun q hq => hr q (List.mem_cons_of_mem p hq))
      (log_call_preserves_inv p.1 p.2 s (hr p (List.mem_cons_self p rest)) h)

/-- Witness for C1: logging `Acme Corp` and then `ACME CORP` from the
empty store leaves the no-duplicate invariant intact. -/
theorem logCall_at_most_one_company_row_witness :
    companiesInv (runLogCalls twoLogSteps emptyStore) :=
  logCall_at_most_one_company_row twoLogSteps emptyStore (by decide)
    (by unfold companiesInv; decide)

/-- Claim C2: /get-follow-ups returns exactly the projected calls with a
non-empty `follow_up_date` lexicographically at most the cutoff, in
ascending `follow_up_date` order under a stable sort (the output filtered
at any key equals the filtered input at that key, keeping original
relative order), and `count` equals the length of the returned list. -/
theorem get_follow_ups_due_sorted_stable (env : Env) (sheet : Sheet) :
    List.Perm (get_follow_ups env sheet).follow_ups
      ((projLoop env.fresh sheet.header 0 sheet.rows).filter (duePred env.today))
    ∧ List.Pairwise (fun a b => strLeB a.follow_up_date b.follow_up_date = true)
        (get_follow_ups env sheet).follow_ups
    ∧ (∀ k : String,
        (get_follow_ups env sheet).follow_ups.filter (fun c => c.follow_up_date == k)
          = ((projLoop env.fresh sheet.header 0 sheet.rows).filter (duePred env.today)).filter
              (fun c => c.follow_up_date == k))
    ∧ (get_follow_ups env sheet).count = (get_follow_ups env sheet).follow_ups.length := by
  have hL := fuLoop_eq_filter env.fresh env.today sheet.header sheet.rows 0
  have hf : (get_follow_ups env sheet).follow_ups
      = sortByFud (fuLoop env.fresh env.today sheet.header 0 sheet.rows) := rfl
  refine ⟨?_, ?_, ?_, rfl⟩
  · rw [hf, hL]
    exact sortByFud_perm _
  · rw [hf]
    exact sortByFud_pairwise _
  · intro k
    rw [hf, hL]
    exact sortByFud_filter _ k

/-- Claim C3 (amended): /search-calls returns, in encounter order, exactly
the projected calls whose lowercased notes contain the lowercased keyword,
restricted to a case-insensitive company match only when the optional
company filter is present AND non-empty (Python truthiness: an empty
string filter is ignored); `matches` equals the result length, and the
empty keyword with no filter passes every call through unchanged. -/
theorem search_calls_keyword_filter (env : Env) (keyword : String)
    (company_filter : Option String) (sheet : Sheet) :
    (search_calls env keyword company_filter sheet).calls
      = (projLoop env.fresh sheet.header 0 sheet.rows).filter (searchPred keyword company_filter)
    ∧ (search_calls env keyword company_filter sheet).matches'
        = (search_calls env keyword company_filter sheet).calls.length
    ∧ (search_calls env "" none sheet).calls = projLoop env.fresh sheet.header 0 sheet.rows := by
  refine ⟨searchLoop_eq_filter env.fresh keyword company_filter sheet.header sheet.rows 0,
    rfl, ?_⟩
  calc (search_calls env "" none sheet).calls
      = (projLoop env.fresh sheet.header 0 sheet.rows).filter (searchPred "" none) :=
        searchLoop_eq_filter env.fresh "" none sheet.header sheet.rows 0
    _ = projLoop env.fresh sheet.header 0 sheet.rows :=
        List.filter_eq_self.mpr (fun c _ => searchPred_empty_keyword c)

/-- Counterexample to C3 as stated: with the company filter present but
equal to the empty string, the code ignores the filter (Python truthiness),
so a refund call of company `Acme` is returned even though the claim
demands calls whose company name equals the filter `""`. -/
theorem search_calls_empty_filter_cex :
    ¬ ((search_calls envW "refund" (some "") refundSheet).calls
        = (projLoop envW.fresh refundSheet.header 0 refundSheet.rows).filter
            (fun c => strContains (lowerStr c.notes) (lowerStr "refund")
              && (lowerStr c.company_name == lowerStr ""))) := by decide

/-- Claim C4: `find_company_row` scans the name column top-to-bottom,
header excluded, and returns the sheet row of the first case-insensitive
match, or `none` exactly when no row matches; targets equal up to case
resolve to the same row, and among duplicate names the earliest row wins. -/
theorem find_company_row_first_casefold_match (sheet : Sheet) (a b : String) :
    (lowerStr a = lowerStr b → find_company_row sheet a = find_company_row sheet b)
    ∧ (∀ r, find_company_row sheet a = some r →
        2 ≤ r ∧ r - 2 < (namesCol sheet).length
        ∧ lowerStr ((namesCol sheet).getD (r - 2) "") = lowerStr a
        ∧ ∀ j, j < r - 2 → ¬ lowerStr ((namesCol sheet).getD j "") = lowerStr a)
    ∧ (find_company_row sheet a = none ↔ ∀ n ∈ namesCol sheet, ¬ lowerStr n = lowerStr a) := by
  refine ⟨?_, ?_, ?_⟩
  · intro h
    unfold find_company_row
    exact scanAux_congr a b h (namesCol sheet) 2
  · intro r hr
    rcases scanAux_some a (namesCol sheet) 2 r hr with ⟨k, hk, hrk, hm, hb⟩
    have hk2 : r - 2 = k := by omega
    refine ⟨by omega, by omega, ?_, ?_⟩
    · rw [hk2]
      exact hm
    · intro j hj
      exact hb j (by omega)
  · exact scanAux_none_iff a (namesCol sheet) 2

/-- Witness for C4: on a sheet holding `Acme Corp` then `ACME CORP`, the
two casings of the target resolve identically, and the match reported for
`ACME CORP` is the earliest row (sheet row 2). -/
theorem find_company_row_first_casefold_match_witness :
    find_company_row dupSheet "ACME CORP" = find_company_row dupSheet "acme corp"
    ∧ (2 ≤ 2 ∧ 2 - 2 < (namesCol dupSheet).length
        ∧ lowerStr ((namesCol dupSheet).getD (2 - 2) "") = lowerStr "ACME CORP"
        ∧ ∀ j, j < 2 - 2 → ¬ lowerStr ((namesCol dupSheet).getD j "") = lowerStr "ACME CORP") :=
  ⟨(find_company_row_first_casefold_match dupSheet "ACME CORP" "acme corp").1 (by decide),
   (find_company_row_first_casefold_match dupSheet "ACME CORP" "acme corp").2.1 2 (by decide)⟩

/-- Claim C5 (amended): on any of the four protected routes the auth gate
runs before any domain logic and a failed check leaves the store
completely unchanged; a present-but-wrong `X-API-Key` header is answered
HTTP 401 by `verify_api_key`, while an absent header is rejected by
FastAPI request validation with HTTP 422 (not 401). -/
theorem protected_routes_reject_bad_auth (apiKey : String) (env : Env) (req : Request)
    (s : Store) :
    (routeProtected req.route = true → req.header = none →
        handle apiKey env req s = (s, validationErrResp))
    ∧ (routeProtected req.route = true → ∀ k, req.header = some k →
        verify_api_key apiKey k = false →
        handle apiKey env req s = (s, invalidKeyResp)) := by
  constructor
  · intro hp hh
    simp [handle, hp, hh, authCheck]
  · intro hp k hh hk
    simp [handle, hp, hh, authCheck, hk]

/-- Witness for C5: a missing header on /log-call yields the 422
validation rejection and a wrong header yields the 401 rejection, the
store untouched in both runs. -/
theorem protected_routes_reject_bad_auth_witness :
    handle "secret" envW reqNoHeader emptyStore = (emptyStore, validationErrResp)
    ∧ handle "secret" envW reqBadKey emptyStore = (emptyStore, invalidKeyResp) :=
  ⟨(protected_routes_reject_bad_auth "secret" envW reqNoHeader emptyStore).1 (by decide) rfl,
   (protected_routes_reject_bad_auth "secret" envW reqBadKey emptyStore).2 (by decide)
     "wrong" rfl (by decide)⟩

/-- Counterexample to C5 as stated: a request to the protected /log-call
route with the shared-secret header missing is answered HTTP 422 (FastAPI
required-header validation), not HTTP 401 as the claim asserts — though
the store is indeed left unchanged. -/
theorem missing_header_not_401_cex :
    (handle "secret" envW reqNoHeader emptyStore).2.status = 422
    ∧ ¬ ((handle "secret" envW reqNoHeader emptyStore).2.status = 401)
    ∧ (handle "secret" envW reqNoHeader emptyStore).1 = emptyStore := by decide

/-- Claim C6 (amended): a failed store write is never retried — on success
the Calls sheet grows by exactly the one new row, on failure it is
unchanged.  The Sheets version catches the failure and answers HTTP 200
with `success:false` and a diagnostic message (not 500); the Airtable
draft answers an explicit HTTP 500 with the exception text. -/
theorem store_failure_surfacing (env : Env) (lenv : LbEnv) (call : CallLog) (s : Store)
    (st : LbState) :
    (env.callsAppendOk = false →
        (log_call env call s).2.status = 200
        ∧ (log_call env call s).2.success = false
        ∧ (log_call env call s).2.message = "Error logging call: " ++ env.errText
        ∧ (log_call env call s).1.calls = s.calls)
    ∧ (env.callsAppendOk = true → env.companiesAppendOk = true →
        (log_call env call s).1.calls = appendRow s.calls (callRow env call))
    ∧ (lenv.getOk = true → lenv.createCompanyOk = false → lenv.createCallOk = false →
        (lb_log_call lenv call st).2.status = 500
        ∧ (lb_log_call lenv call st).2.message = "Exception: " ++ lenv.errText
        ∧ (lb_log_call lenv call st).1 = st) := by
  refine ⟨?_, ?_, ?_⟩
  · intro hw
    rw [log_call]
    cases hf : find_company_row_caught
        (if env.readOk then Except.ok s.companies else Except.error env.errText)
        call.company_name with
    | none =>
      cases hca : env.companiesAppendOk with
      | false => simp [logCallErr]
      | true => simp [appendCallStep, hw, logCallErr]
    | some r => simp [appendCallStep, hw, logCallErr]
  · intro hw hca
    rw [log_call]
    cases hf : find_company_row_caught
        (if env.readOk then Except.ok s.companies else Except.error env.errText)
        call.company_name with
    | none => simp [hca, appendCallStep, hw]
    | some r => simp [appendCallStep, hw]
  · intro hg hcc hcl
    rw [lb_log_call, hg]
    simp only [if_true]
    cases hfl : st.companies.filter
        (fun c => lowerStr c.name == lowerStr call.company_name) with
    | nil => simp [hcc, lbErr]
    | cons c rest => simp [lbCreateCall, hcl, lbErr]

/-- Witness for C6: concrete runs of both versions with the write raising. -/
theorem store_failure_surfacing_witness :
    ((log_call envWriteFail callW emptyStore).2.status = 200
      ∧ (log_call envWriteFail callW emptyStore).2.success = false
      ∧ (log_call envWriteFail callW emptyStore).2.message
          = "Error logging call: " ++ envWriteFail.errText
      ∧ (log_call envWriteFail callW emptyStore).1.calls = emptyStore.calls)
    ∧ (log_call envW callW emptyStore).1.calls
        = appendRow emptyStore.calls (callRow envW callW)
    ∧ ((lb_log_call lbEnvFail callW lbStateW).2.status = 500
      ∧ (lb_log_call lbEnvFail callW lbStateW).2.message
          = "Exception: " ++ lbEnvFail.errText
      ∧ (lb_log_call lbEnvFail callW lbStateW).1 = lbStateW) :=
  ⟨(store_failure_surfacing envWriteFail lbEnvFail callW emptyStore lbStateW).1 rfl,
   (store_failure_surfacing envW lbEnvFail callW emptyStore lbStateW).2.1 rfl rfl,
   (store_failure_surfacing envW lbEnvFail callW emptyStore lbStateW).2.2 rfl rfl rfl⟩

/-- Counterexample to C6 as stated: in the Sheets version a failed Calls
append is surfaced as HTTP 200 with `success:false`, not as the HTTP 500
the claim asserts. -/
theorem write_failure_http_200_cex :
    (log_call envWriteFail callW emptyStore).2.status = 200
    ∧ (log_call envWriteFail callW emptyStore).2.success = false
    ∧ ¬ ((log_call envWriteFail callW emptyStore).2.status = 500) := by decide

/-- Claim C7: /get-company-history answers HTTP 200 in both outcomes; it
reports `success:false` (with a business-failure message) exactly when no
Companies row matches the requested name case-insensitively, and on
success it returns the company record together with exactly the calls
whose company name equals the requested name case-insensitively. -/
theorem get_company_history_semantics (env : Env) (name : String) (s : Store) :
    (get_company_history env name s).status = 200
    ∧ ((get_company_history env name s).success = false ↔
        ∀ n ∈ namesCol s.companies, ¬ lowerStr n = lowerStr name)
    ∧ ((get_company_history env name s).success = false →
        (get_company_history env name s).message = "Company not found")
    ∧ ((get_company_history env name s).success = true →
        (get_company_history env name s).calls
          = (projLoop env.fresh s.calls.header 0 s.calls.rows).filter
              (fun c => lowerStr c.company_name == lowerStr name)
        ∧ (get_company_history env name s).company
            = get_company_data s.companies (find_company_row s.companies name)) := by
  cases hf : find_company_row s.companies name with
  | none =>
    have hall : ∀ n ∈ namesCol s.companies, ¬ lowerStr n = lowerStr name :=
      (scanAux_none_iff name (namesCol s.companies) 2).mp hf
    refine ⟨by simp [get_company_history, hf], ?_, ?_, ?_⟩
    · simp only [get_company_history, hf]
      simpa using hall
    · intro _
      simp [get_company_history, hf]
    · intro htrue
      simp [get_company_history, hf] at htrue
  | some r =>
    refine ⟨by simp [get_company_history, hf], ?_, ?_, ?_⟩
    · simp only [get_company_history, hf]
      rcases scanAux_some name (namesCol s.companies) 2 r hf with ⟨k, hk, _, hm, _⟩
      simp only [Bool.true_eq_false, false_iff]
      intro hall
      have hmem : (namesCol s.companies).getD k "" ∈ namesCol s.companies := by
        rw [List.getD_eq_getElem (namesCol s.companies) "" hk]
        exact List.getElem_mem hk
      exact hall ((namesCol s.companies).getD k "") hmem hm
    · intro hfalse
      simp [get_company_history, hf] at hfalse
    · intro _
      constructor
      · simp only [get_company_history, hf]
        exact gcLoop_eq_filter env.fresh name s.calls.header s.calls.rows 0
      · simp only [get_company_history, hf]

/-- Witness for C7: a history request for `acme corp` against a store that
holds `Acme Corp` succeeds with that company's calls, while one against
the empty store reports the business failure inside HTTP 200. -/
theorem get_company_history_semantics_witness :
    ((get_company_history envW "acme corp" acmeStore).calls
        = (projLoop envW.fresh acmeStore.calls.header 0 acmeStore.calls.rows).filter
            (fun c => lowerStr c.company_name == lowerStr "acme corp")
      ∧ (get_company_history envW "acme corp" acmeStore).company
          = get_company_data acmeStore.companies
              (find_company_row acmeStore.companies "acme corp"))
    ∧ (get_company_history envW "acme corp" emptyStore).message = "Company not found" :=
  ⟨(get_company_history_semantics envW "acme corp" acmeStore).2.2.2 (by decide),
   (get_company_history_semantics envW "acme corp" emptyStore).2.2.1 (by decide)⟩

/-- Claim C8: GET /sheets-ping carries no auth dependency, so any request
— in particular one presenting no `X-API-Key` header at all — runs the
handler, and a successful invocation appends exactly one new row to the
Calls sheet (HTTP 200), a store mutation reachable without the shared
secret. -/
theorem sheets_ping_no_auth_appends (apiKey : String) (env : Env) (req : Request) (s : Store) :
    routeProtected Route.sheetsPing = false
    ∧ (req.route = Route.sheetsPing → env.pingAppendOk = true →
        (handle apiKey env req s).1.calls = appendRow s.calls (pingRow env)
        ∧ (handle apiKey env req s).1.companies = s.companies
        ∧ (handle apiKey env req s).2.status = 200) := by
  refine ⟨rfl, ?_⟩
  intro hr hp
  simp [handle, hr, routeProtected, runRoute, sheets_ping, hp]

/-- Witness for C8: a headerless /sheets-ping request against the empty
store appends the ping row and answers 200. -/
theorem sheets_ping_no_auth_appends_witness :
    (handle "secret" envW reqPing emptyStore).1.calls
        = appendRow emptyStore.calls (pingRow envW)
    ∧ (handle "secret" envW reqPing emptyStore).1.companies = emptyStore.companies
    ∧ (handle "secret" envW reqPing emptyStore).2.status = 200 :=
  (sheets_ping_no_auth_appends "secret" envW reqPing emptyStore).2 rfl rfl

/-- Claim C9: a raised error during the Companies name-column scan is
swallowed — `find_company_row` returns `None`, indistinguishable from an
absent company — so a /log-call whose scan read fails appends a brand-new
Companies row unconditionally and still reports success, breaking the
at-most-one-row-per-name invariant whenever the name already exists. -/
theorem find_read_error_swallowed_duplicate (env : Env) (e : String) (call : CallLog)
    (s : Store) :
    find_company_row_caught (Except.error e) call.company_name = none
    ∧ (env.readOk = false → env.companiesAppendOk = true →
        (log_call env call s).1.companies = appendRow s.companies (companyRow env call)
        ∧ (log_call env call s).2.status = 200
        ∧ (env.callsAppendOk = true → (log_call env call s).2.success = true)
        ∧ (lowerStr call.company_name ∈ lowerNames s.companies →
            ¬ companiesInv (log_call env call s).1)) := by
  refine ⟨rfl, ?_⟩
  intro hr hca
  have hcompanies : (log_call env call s).1.companies
      = appendRow s.companies (companyRow env call) := by
    rw [log_call, hr]
    simp only [Bool.false_eq_true, if_false, find_company_row_caught, hca, if_true]
    rw [appendCallStep_companies]
  refine ⟨hcompanies, ?_, ?_, ?_⟩
  · rw [log_call, hr]
    simp only [Bool.false_eq_true, if_false, find_company_row_caught, hca, if_true]
    cases hcl : env.callsAppendOk <;> simp [appendCallStep, hcl, logCallErr]
  · intro hcl
    rw [log_call, hr]
    simp only [Bool.false_eq_true, if_false, find_company_row_caught, hca, if_true]
    simp [appendCallStep, hcl]
  · intro hmem hinv
    unfold companiesInv at hinv
    rw [hcompanies, lowerNames_appendRow] at hinv
    rw [(List.perm_append_singleton _ _).nodup_iff, List.nodup_cons] at hinv
    exact hinv.1 hmem

/-- Witness for C9: against a store already holding `Acme`, a /log-call
for `Acme` whose scan read raises appends a duplicate Companies row,
reports success, and the invariant no longer holds. -/
theorem find_read_error_swallowed_duplicate_witness :
    (log_call envReadFail { callW with company_name := "Acme" } noIdStore).1.companies
        = appendRow noIdStore.companies
            (companyRow envReadFail { callW with company_name := "Acme" })
    ∧ (log_call envReadFail { callW with company_name := "Acme" } noIdStore).2.status = 200
    ∧ (log_call envReadFail { callW with company_name := "Acme" } noIdStore).2.success = true
    ∧ ¬ companiesInv (log_call envReadFail { callW with company_name := "Acme" } noIdStore).1 := by
  have h := (find_read_error_swallowed_duplicate envReadFail "boom"
    { callW with company_name := "Acme" } noIdStore).2 rfl rfl
  exact ⟨h.1, h.2.1, h.2.2.1 rfl, h.2.2.2 (by decide)⟩

/-- Claim C10: the read operations are not functions of the store alone —
when a Calls record lacks an `ID` key, each of company-history, search and
follow-ups substitutes the uuid freshly drawn during that read, so two
runs over the identical store state (differing only in the drawn uuids)
return different `id` values for the same row. -/
theorem reads_not_deterministic_on_missing_id :
    (get_company_history envW "acme" noIdStore).calls
        ≠ (get_company_history envFreshB "acme" noIdStore).calls
    ∧ (search_calls envW "" none noIdSheet).calls
        ≠ (search_calls envFreshB "" none noIdSheet).calls
    ∧ (get_follow_ups envW noIdSheet).follow_ups
        ≠ (get_follow_ups envFreshB noIdSheet).follow_ups
    ∧ ((get_calls_for_company envW.fresh noIdSheet "acme").map (fun c => c.id))
        = [envW.fresh 0] := by decide

end LeadBringer
